import Mathlib

/-!
Shallow embedding of the Chirp social-network core (src/app), covering the
data model and the operations referenced by the frozen claims:

* rows of the SQLite tables `users`, `posts`, `follows`, `blocks`, `mutes`,
  `likes`, `notifications`, `community_notes`, `community_note_ratings`
  (src/app/database.py);
* the route handlers `like_post`, `reply`, `repost`, `pin_post`,
  `rate_community_note` (src/app/routes/posts.py), `follow`, `block_user`
  and the profile query (src/app/routes/auth.py), and the home-timeline
  query `get_feed_posts` (src/app/routes/feed.py).

Timestamps (`TIMESTAMP DEFAULT CURRENT_TIMESTAMP`, ISO text in SQLite) are
modelled as `Nat`, which is order-isomorphic to the fixed-width text format
the code compares with. `AUTOINCREMENT` primary keys that the code reads
back are modelled with explicit next-id counters in the state.

A SQL `ORDER BY` clause constrains only the relative order of rows with
distinct keys; the result is some permutation of the selected rows that is
sorted (non-strictly) by the key. Queries with an `ORDER BY` are therefore
embedded as a relation between the state and the returned row sequence
(`homeRows`, `profileRows`) rather than as a function.
-/

namespace Chirp

/-- A row of `users` (the columns the embedded operations read). -/
structure User where
  id : Nat
  username : String
  deriving Repr, DecidableEq

/-- A row of `posts` (the columns the embedded operations read). -/
structure Post where
  id : Nat
  user_id : Nat
  content : String
  parent_id : Option Nat := none
  repost_id : Option Nat := none
  quote_id : Option Nat := none
  is_pinned : Bool := false
  is_deleted : Bool := false
  created_at : Nat
  deriving Repr, DecidableEq

/-- A row of `notifications` (`message`, `is_read`, timestamps omitted:
never read by the embedded operations). -/
structure Notif where
  user_id : Nat
  actor_id : Nat
  ntype : String
  post_id : Option Nat
  deriving Repr, DecidableEq

/-- A row of `community_notes` (content/sources/category omitted: never
read by the rating operation). -/
structure Note where
  id : Nat
  post_id : Nat
  author_id : Nat
  status : String := "proposed"
  helpful_count : Nat := 0
  not_helpful_count : Nat := 0
  deriving Repr, DecidableEq

/-- A row of `community_note_ratings`. -/
structure Rating where
  id : Nat
  note_id : Nat
  user_id : Nat
  rating : String
  deriving Repr, DecidableEq

/-- The database state.  `follows` holds `(follower_id, following_id)`,
`blocks` holds `(blocker_id, blocked_id)`, `mutes` holds
`(muter_id, muted_id)`, `likes` holds `(user_id, post_id)`. -/
structure DB where
  users : List User
  posts : List Post
  follows : List (Nat × Nat)
  blocks : List (Nat × Nat)
  mutes : List (Nat × Nat)
  likes : List (Nat × Nat)
  notifications : List Notif
  notes : List Note
  ratings : List Rating
  next_post_id : Nat
  next_rating_id : Nat
  deriving Repr, DecidableEq

/-! ## Community-note rating (posts.py `rate_community_note`) -/

/-- The rating-upsert block of `rate_community_note`: a user's existing
rating row is updated in place when the submitted value differs, left
alone when it is the same, and a fresh row is inserted when the user has
no rating for the note yet. -/
def upsertRating (db : DB) (uid nid : Nat) (v : String) : DB :=
  match db.ratings.find? (fun r => r.note_id == nid && r.user_id == uid) with
  | some existing =>
      if existing.rating ≠ v then
        let updated := db.ratings.map
          (fun r => if r.id == existing.id then { r with rating := v } else r)
        { db with ratings := updated }
      else db
  | none =>
      { db with
        ratings := db.ratings ++ [⟨db.next_rating_id, nid, uid, v⟩],
        next_rating_id := db.next_rating_id + 1 }

/-- `SELECT COUNT(*) FROM community_note_ratings WHERE note_id = ? AND rating = ?`. -/
def ratingCount (db : DB) (nid : Nat) (v : String) : Nat :=
  db.ratings.countP (fun r => r.note_id == nid && r.rating == v)

/-- The statement `UPDATE community_notes SET helpful_count = ?,
not_helpful_count = ? WHERE id = ?`. -/
def setNoteCounts (nid H NH : Nat) (ns : List Note) : List Note :=
  ns.map (fun n => if n.id == nid then
    { n with helpful_count := H, not_helpful_count := NH } else n)

/-- The statement `UPDATE community_notes SET status = 'approved' WHERE id = ?`. -/
def approveNote (nid : Nat) (ns : List Note) : List Note :=
  ns.map (fun n => if n.id == nid then { n with status := "approved" } else n)

/-- posts.py `rate_community_note`: look the note up (404 when absent),
validate the rating value (400 otherwise), upsert the caller's rating,
recompute both counts from the full rating set, store them, and set the
status to approved when the recomputed helpful count is at least 3.
`none` models the aborted (404/400) request. -/
def rate_community_note (db : DB) (uid nid : Nat) (v : String) : Option DB :=
  match db.notes.find? (fun n => n.id == nid) with
  | none => none
  | some _note =>
      if !(v == "helpful" || v == "not_helpful") then none
      else
        let db1 := upsertRating db uid nid v
        let helpful := ratingCount db1 nid "helpful"
        let not_helpful := ratingCount db1 nid "not_helpful"
        let db2 := { db1 with notes := setNoteCounts nid helpful not_helpful db1.notes }
        if helpful ≥ 3 then
          some { db2 with notes := approveNote nid db2.notes }
        else
          some db2

/-- The number of distinct users holding a rating with value `v` for note
`nid`. -/
def distinctRatersWith (db : DB) (nid : Nat) (v : String) : Nat :=
  (((db.ratings.filter (fun r => r.note_id == nid && r.rating == v)).map
      (fun r => r.user_id)).dedup).length

/-- The number of distinct users holding any rating for note `nid`. -/
def distinctRaters (db : DB) (nid : Nat) : Nat :=
  (((db.ratings.filter (fun r => r.note_id == nid)).map
      (fun r => r.user_id)).dedup).length

/-- The `UNIQUE(note_id, user_id)` constraint on `community_note_ratings`. -/
def RatingPairsNodup (db : DB) : Prop :=
  (db.ratings.map (fun r => (r.note_id, r.user_id))).Nodup

/-- The `CHECK(rating IN ('helpful', 'not_helpful'))` constraint. -/
def RatingValuesValid (db : DB) : Prop :=
  ∀ r ∈ db.ratings, r.rating = "helpful" ∨ r.rating = "not_helpful"

/-! ## Like toggle (posts.py `like_post`) -/

/-- `SELECT COUNT(*) FROM likes WHERE post_id = ?`. -/
def likeCount (db : DB) (pid : Nat) : Nat :=
  db.likes.countP (fun l => l.2 == pid)

/-- `SELECT id FROM likes WHERE user_id = ? AND post_id = ?` is not null. -/
def isLiked (db : DB) (uid pid : Nat) : Bool :=
  db.likes.any (fun l => l.1 == uid && l.2 == pid)

/-- posts.py `like_post`: 404 unless the post exists and is not
soft-deleted; delete the like row when it exists, otherwise insert one and
notify the author unless the actor is the author; return the new liked
state and the recomputed like count. -/
def like_post (db : DB) (uid pid : Nat) : Option (DB × Bool × Nat) :=
  match db.posts.find? (fun p => p.id == pid && !p.is_deleted) with
  | none => none
  | some post =>
      let db' :=
        if isLiked db uid pid then
          { db with likes := db.likes.filter (fun l => !(l.1 == uid && l.2 == pid)) }
        else
          let withLike := { db with likes := db.likes ++ [(uid, pid)] }
          if post.user_id ≠ uid then
            { withLike with notifications :=
                withLike.notifications ++ [⟨post.user_id, uid, "like", some pid⟩] }
          else withLike
      some (db', !isLiked db uid pid, likeCount db' pid)

/-! ## Follow toggle (auth.py `follow`) and block toggle (auth.py `block_user`) -/

/-- The three ways the follow route can terminate after its lookups pass. -/
inductive FollowOutcome where
  | blockedRejected
  | followed
  | unfollowed
  deriving Repr, DecidableEq

/-- auth.py `follow`: 400 on self-follow, 404 on missing target; a block
row in either direction rejects the request with no state change;
otherwise toggle the follow edge, notifying the target on creation. -/
def follow (db : DB) (uid target : Nat) : Option (DB × FollowOutcome) :=
  if uid == target then none
  else match db.users.find? (fun u => u.id == target) with
  | none => none
  | some _ =>
      if db.blocks.any (fun b =>
          (b.1 == uid && b.2 == target) || (b.1 == target && b.2 == uid)) then
        some (db, .blockedRejected)
      else if db.follows.any (fun f => f.1 == uid && f.2 == target) then
        some ({ db with follows :=
          db.follows.filter (fun f => !(f.1 == uid && f.2 == target)) }, .unfollowed)
      else
        some ({ db with
          follows := db.follows ++ [(uid, target)],
          notifications := db.notifications ++ [⟨target, uid, "follow", none⟩] },
          .followed)

/-- auth.py `block_user`: 400 on self-block; delete the block row when it
exists (unblock), otherwise insert it and delete any follow edge between
the two users in either direction. -/
def block_user (db : DB) (uid target : Nat) : Option DB :=
  if uid == target then none
  else if db.blocks.any (fun b => b.1 == uid && b.2 == target) then
    some { db with blocks :=
      db.blocks.filter (fun b => !(b.1 == uid && b.2 == target)) }
  else
    let keptFollows := db.follows.filter (fun f =>
      !((f.1 == uid && f.2 == target) || (f.1 == target && f.2 == uid)))
    some { db with blocks := db.blocks ++ [(uid, target)], follows := keptFollows }

/-! ## Pin toggle (posts.py `pin_post`) -/

/-- The statement `UPDATE posts SET is_pinned = 0 WHERE user_id = ?`. -/
def unpinAll (uid : Nat) (ps : List Post) : List Post :=
  ps.map (fun p => if p.user_id == uid then { p with is_pinned := false } else p)

/-- The statement `UPDATE posts SET is_pinned = 1 WHERE id = ?`. -/
def setPinned (pid : Nat) (ps : List Post) : List Post :=
  ps.map (fun p => if p.id == pid then { p with is_pinned := true } else p)

/-- posts.py `pin_post`: 404 unless the post exists and belongs to the
caller; set `is_pinned = 0` on all of the caller's posts, then set
`is_pinned = 1` on the target post unless it was pinned before (toggle
off). -/
def pin_post (db : DB) (uid pid : Nat) : Option DB :=
  match db.posts.find? (fun p => p.id == pid && p.user_id == uid) with
  | none => none
  | some post =>
      if !post.is_pinned then
        some { db with posts := setPinned pid (unpinAll uid db.posts) }
      else
        some { db with posts := unpinAll uid db.posts }

/-- One step of a sequence of pin-toggle requests: an aborted request (404)
leaves the state unchanged. -/
def pinStep (db : DB) (call : Nat × Nat) : DB :=
  match pin_post db call.1 call.2 with
  | some db' => db'
  | none => db

/-! ## Mentions (posts.py `extract_mentions`) -/

/-- `\w` of Python's `re` over ASCII word characters. -/
def isWordChar (c : Char) : Bool :=
  c.isAlphanum || c == '_'

/-- Scanner for `re.findall(r'@(\w+)', content)`: left to right, an `@`
followed by at least one word character yields that maximal word-character
run, and scanning resumes after the run.  The extra fuel argument only
makes the recursion structural; every step consumes at least one
character, so `cs.length` fuel always suffices. -/
def mentionScanFuel : Nat → List Char → List String
  | 0, _ => []
  | _ + 1, [] => []
  | fuel + 1, c :: rest =>
      if c == '@' && !(rest.takeWhile isWordChar).isEmpty then
        String.mk (rest.takeWhile isWordChar) ::
          mentionScanFuel fuel (rest.dropWhile isWordChar)
      else
        mentionScanFuel fuel rest

/-- the matches of `re.findall(r'@(\w+)', content)` in order. -/
def mentionScan (cs : List Char) : List String :=
  mentionScanFuel cs.length cs

/-- posts.py `extract_mentions` (`list(set(re.findall(...)))`): the distinct
mention tokens.  Python's set iteration order is arbitrary; `eraseDups`
(keep first occurrences) is one admissible order, and no embedded claim
depends on the order. -/
def extract_mentions (content : String) : List String :=
  (mentionScan content.data).eraseDups

/-- `username` is declared `COLLATE NOCASE`, so the mention lookup
`SELECT id FROM users WHERE username = ?` compares ASCII
case-insensitively. -/
def usernameEq (a b : String) : Bool :=
  String.mk (a.data.map Char.toLower) == String.mk (b.data.map Char.toLower)

/-- The mention notifications generated for `content` posted by `uid`,
referencing post `postRef`: one per distinct mention token that resolves
to an existing user other than the actor. -/
def mentionNotifs (db : DB) (uid postRef : Nat) (content : String) : List Notif :=
  ((extract_mentions content).filterMap
      (fun m => db.users.find? (fun u => usernameEq u.username m))).filterMap
    (fun u => if u.id ≠ uid then some ⟨u.id, uid, "mention", some postRef⟩ else none)

/-! ## Reply (posts.py `reply`) and repost (posts.py `repost`) -/

/-- `SELECT COUNT(*) FROM posts WHERE parent_id = ? AND is_deleted = 0`. -/
def replyCount (db : DB) (pid : Nat) : Nat :=
  db.posts.countP (fun p => p.parent_id == some pid && !p.is_deleted)

/-- `SELECT COUNT(*) FROM posts WHERE repost_id = ?`. -/
def repostCount (db : DB) (pid : Nat) : Nat :=
  db.posts.countP (fun p => p.repost_id == some pid)

/-- posts.py `reply`: 404 unless the parent exists and is not soft-deleted;
reject empty or over-500-character content; insert the reply post, notify
the parent's author unless the actor is that author (the notification
references the parent post), then add one mention notification per
distinct resolved mentioned user other than the actor (these reference the
new reply post). `now` stands for `CURRENT_TIMESTAMP`. -/
def reply (db : DB) (uid pid : Nat) (content : String) (now : Nat) : Option DB :=
  match db.posts.find? (fun p => p.id == pid && !p.is_deleted) with
  | none => none
  | some parent =>
      if content.length == 0 || content.length > 500 then none
      else
        let newId := db.next_post_id
        let newPost : Post :=
          { id := newId, user_id := uid, content := content,
            parent_id := some pid, created_at := now }
        let replyNotifs : List Notif :=
          if parent.user_id ≠ uid then [⟨parent.user_id, uid, "reply", some pid⟩] else []
        some { db with
          posts := db.posts ++ [newPost],
          next_post_id := newId + 1,
          notifications :=
            db.notifications ++ replyNotifs ++ mentionNotifs db uid newId content }

/-- posts.py `repost`: 404 unless the original exists and is not
soft-deleted; when the caller already has a repost row for it, hard-delete
that row (the lookup ignores `is_deleted`); otherwise insert an
empty-content post with `repost_id` set and notify the original's author
unless the actor is that author. `now` stands for `CURRENT_TIMESTAMP`. -/
def repost (db : DB) (uid pid : Nat) (now : Nat) : Option DB :=
  match db.posts.find? (fun p => p.id == pid && !p.is_deleted) with
  | none => none
  | some original =>
      match db.posts.find? (fun p => p.user_id == uid && p.repost_id == some pid) with
      | some existing =>
          some { db with posts := db.posts.filter (fun p => !(p.id == existing.id)) }
      | none =>
          let newPost : Post :=
            { id := db.next_post_id, user_id := uid, content := "",
              repost_id := some pid, created_at := now }
          let repostNotifs : List Notif :=
            if original.user_id ≠ uid then
              [⟨original.user_id, uid, "repost", some pid⟩]
            else []
          some { db with
            posts := db.posts ++ [newPost],
            next_post_id := db.next_post_id + 1,
            notifications := db.notifications ++ repostNotifs }

/-! ## Home timeline (feed.py `get_feed_posts`) -/

/-- The WHERE clause of the home-timeline query for `viewer`: not
soft-deleted, the author row exists (`JOIN users`), no `mutes` row and no
`blocks` row with the viewer on the left and the author on the right
(`LEFT JOIN ... IS NULL` anti-joins), and the post is the viewer's own or
its author is someone the viewer follows.  Note that only the
viewer-as-blocker direction of `blocks` is tested. -/
def homeCandidate (db : DB) (viewer : Nat) (p : Post) : Bool :=
  !p.is_deleted
  && db.users.any (fun u => u.id == p.user_id)
  && !(db.mutes.any (fun m => m.1 == viewer && m.2 == p.user_id))
  && !(db.blocks.any (fun b => b.1 == viewer && b.2 == p.user_id))
  && (p.user_id == viewer || db.follows.any (fun f => f.1 == viewer && f.2 == p.user_id))

/-- The `ORDER BY p.created_at DESC` result relation of `get_feed_posts`
before pagination: some permutation of the filtered rows that is sorted by
`created_at` descending (the relative order of rows with equal timestamps
is not constrained by the query). -/
def homeRows (db : DB) (viewer : Nat) (L : List Post) : Prop :=
  L.Perm (db.posts.filter (homeCandidate db viewer)) ∧
  L.Pairwise (fun a b => b.created_at ≤ a.created_at)

/-- `LIMIT per_page OFFSET (page - 1) * per_page` applied to the ordered
rows. -/
def feedPage (L : List Post) (page per_page : Nat) : List Post :=
  (L.drop ((page - 1) * per_page)).take per_page

/-! ## Profile timeline (auth.py `profile`, posts query) -/

/-- The WHERE clause of the profile posts query: the subject's own rows
that are not soft-deleted, with the author row present (`JOIN users`).
There is no filter on `parent_id` (replies are included) and no
block-based filter. -/
def profileCandidate (db : DB) (subject : Nat) (p : Post) : Bool :=
  p.user_id == subject && !p.is_deleted && db.users.any (fun u => u.id == p.user_id)

/-- `ORDER BY p.is_pinned DESC, p.created_at DESC`: `b` may follow `a`
when `b`'s (pinned, created) key is at most `a`'s lexicographically. -/
def profileKeyLe (a b : Post) : Prop :=
  (b.is_pinned = true → a.is_pinned = true) ∧
  (a.is_pinned = b.is_pinned → b.created_at ≤ a.created_at)

instance (a b : Post) : Decidable (profileKeyLe a b) := by
  unfold profileKeyLe; infer_instance

/-- The result relation of the profile posts query before its `LIMIT 50`:
some permutation of the filtered rows sorted by pinned-first, then
creation time descending. -/
def profileRows (db : DB) (subject : Nat) (L : List Post) : Prop :=
  L.Perm (db.posts.filter (profileCandidate db subject)) ∧ L.Pairwise profileKeyLe

/-! ## State invariants used as hypotheses -/

/-- The `FOREIGN KEY (user_id) REFERENCES users(id)` constraint on
`posts`. -/
def PostAuthorsExist (db : DB) : Prop :=
  ∀ p ∈ db.posts, ∃ u ∈ db.users, u.id = p.user_id

/-- No block edge coexists with a follow edge between the same two users
in either direction, and no block edge is self-referential.  `block_user`
establishes this when inserting a block and `follow` refuses to recreate
the edges, so it holds in every reachable state. -/
def BlockFollowInv (db : DB) : Prop :=
  ∀ e ∈ db.blocks, e.1 ≠ e.2 ∧ e ∉ db.follows ∧ (e.2, e.1) ∉ db.follows

/-- At most one of `author`'s non-deleted posts carries the pinned flag. -/
def PinInv (db : DB) (author : Nat) : Prop :=
  db.posts.countP (fun p => p.user_id == author && !p.is_deleted && p.is_pinned) ≤ 1

instance (db : DB) (viewer : Nat) (L : List Post) : Decidable (homeRows db viewer L) := by
  unfold homeRows; infer_instance

instance (db : DB) (subject : Nat) (L : List Post) : Decidable (profileRows db subject L) := by
  unfold profileRows; infer_instance

instance (db : DB) : Decidable (PostAuthorsExist db) := by
  unfold PostAuthorsExist; infer_instance

instance (db : DB) : Decidable (BlockFollowInv db) := by
  unfold BlockFollowInv; infer_instance

instance (db : DB) (author : Nat) : Decidable (PinInv db author) := by
  unfold PinInv; infer_instance

instance (db : DB) : Decidable (RatingPairsNodup db) := by
  unfold RatingPairsNodup; infer_instance

instance (db : DB) : Decidable (RatingValuesValid db) := by
  unfold RatingValuesValid; infer_instance

/-! ## Theorems -/

/-- Claim C3: after a user A creates a block of B (toggle in the inserting
direction), no follow edge remains between A and B in either direction —
both potential edges are removed by the same operation — and a subsequent
follow attempt by either user toward the other is rejected by the block
check with the state left unchanged and no follow edge created. -/
theorem block_implies_no_follow
    (db db' : DB) (a b : Nat)
    (hab : a ≠ b)
    (husera : db.users.any (fun u => u.id == a) = true)
    (huserb : db.users.any (fun u => u.id == b) = true)
    (hfresh : db.blocks.any (fun e => e.1 == a && e.2 == b) = false)
    (h : block_user db a b = some db') :
    ((a, b) ∉ db'.follows ∧ (b, a) ∉ db'.follows) ∧
    follow db' a b = some (db', FollowOutcome.blockedRejected) ∧
    follow db' b a = some (db', FollowOutcome.blockedRejected) := by
  have hab' : (a == b) = false := by simp [hab]
  have hba' : (b == a) = false := by simp [Ne.symm hab]
  unfold block_user at h
  rw [hab'] at h
  simp only [Bool.false_eq_true, if_false, hfresh] at h
  injection h with hX
  subst hX
  refine ⟨⟨?_, ?_⟩, ?_, ?_⟩
  · intro hmem
    have := (List.mem_filter.mp hmem).2
    simp at this
  · intro hmem
    have := (List.mem_filter.mp hmem).2
    simp at this
  · have hfind : (db.users.find? (fun u => u.id == b)).isSome := by
      rw [List.find?_isSome]
      simpa using List.any_eq_true.mp huserb
    obtain ⟨t, ht⟩ := Option.isSome_iff_exists.mp hfind
    unfold follow
    rw [hab']
    simp only [ht]
    have hblk : (db.blocks ++ [(a, b)]).any
        (fun e => (e.1 == a && e.2 == b) || (e.1 == b && e.2 == a)) = true := by
      simp [List.any_append]
    simp [hblk]
  · have hfind : (db.users.find? (fun u => u.id == a)).isSome := by
      rw [List.find?_isSome]
      simpa using List.any_eq_true.mp husera
    obtain ⟨t, ht⟩ := Option.isSome_iff_exists.mp hfind
    unfold follow
    rw [hba']
    simp only [ht]
    have hblk : (db.blocks ++ [(a, b)]).any
        (fun e => (e.1 == b && e.2 == a) || (e.1 == a && e.2 == b)) = true := by
      simp [List.any_append]
    simp [hblk]

/-- Two mutually following users, no blocks: the state before the block in
the C3 witness. -/
def exDbBlock : DB :=
  { users := [⟨1, "alice"⟩, ⟨2, "bob"⟩], posts := [], follows := [(1, 2), (2, 1)],
    blocks := [], mutes := [], likes := [], notifications := [], notes := [],
    ratings := [], next_post_id := 1, next_rating_id := 1 }

/-- The state after user 1 blocks user 2 in `exDbBlock`. -/
def exDbBlocked : DB :=
  { exDbBlock with blocks := [(1, 2)], follows := [] }

theorem block_implies_no_follow_witness :
    ((1, 2) ∉ exDbBlocked.follows ∧ (2, 1) ∉ exDbBlocked.follows) ∧
    follow exDbBlocked 1 2 = some (exDbBlocked, FollowOutcome.blockedRejected) ∧
    follow exDbBlocked 2 1 = some (exDbBlocked, FollowOutcome.blockedRejected) :=
  block_implies_no_follow exDbBlock exDbBlocked 1 2 (by decide) (by decide)
    (by decide) (by decide) (by decide)

/-- Counting helper: when every element satisfying `r` also satisfies `q`,
removing the `r`-elements removes exactly `countP r` of the `q`-count. -/
theorem countP_filter_not_add {α : Type} (l : List α) (q r : α → Bool)
    (himp : ∀ x, r x = true → q x = true) :
    (l.filter (fun x => !(r x))).countP q + l.countP r = l.countP q := by
  induction l with
  | nil => simp
  | cons x xs ih =>
      by_cases hr : r x = true
      · have hq := himp x hr
        simp only [List.filter_cons, List.countP_cons, hr, hq]
        simp only [Bool.not_true, Bool.false_eq_true, if_false, if_true]
        omega
      · have hr' : r x = false := by revert hr; cases r x <;> simp
        simp only [List.filter_cons, List.countP_cons, hr']
        simp only [Bool.not_false, if_true, List.countP_cons]
        cases hq : q x <;> simp <;> omega

/-- Claim C4: toggling a like twice on an existing, non-deleted post
returns the user's liked state to its original value and leaves the stored
like count of the post equal to the count before the two calls.  The
hypothesis that the (user, post) pair occurs at most once in `likes` is
the table's `UNIQUE(user_id, post_id)` constraint. -/
theorem like_toggle_idempotent
    (db db1 db2 : DB) (uid pid : Nat) (l1 l2 : Bool) (c1 c2 : Nat)
    (huniq : db.likes.countP (fun l => l.1 == uid && l.2 == pid) ≤ 1)
    (h1 : like_post db uid pid = some (db1, l1, c1))
    (h2 : like_post db1 uid pid = some (db2, l2, c2)) :
    isLiked db2 uid pid = isLiked db uid pid ∧
    likeCount db2 pid = likeCount db pid := by
  unfold like_post at h1
  cases hp : db.posts.find? (fun p => p.id == pid && !p.is_deleted) with
  | none => rw [hp] at h1; exact absurd h1 (by simp)
  | some post =>
  rw [hp] at h1
  simp only [Option.some.injEq, Prod.mk.injEq] at h1
  obtain ⟨hdb1, -, -⟩ := h1
  cases hL : isLiked db uid pid with
  | true =>
      -- first call removes the like row, second call re-inserts it
      rw [if_pos hL] at hdb1
      have hlikes1 : db1.likes =
          db.likes.filter (fun l => !(l.1 == uid && l.2 == pid)) := by
        rw [← hdb1]
      have hposts1 : db1.posts = db.posts := by rw [← hdb1]
      have hL1 : isLiked db1 uid pid = false := by
        unfold isLiked
        rw [hlikes1, List.any_eq_false]
        intro l hl
        have hnot := (List.mem_filter.mp hl).2
        simp only [Bool.not_eq_eq_eq_not, Bool.not_true] at hnot
        simp [hnot]
      unfold like_post at h2
      rw [hposts1, hp] at h2
      rw [hL1] at h2
      simp only [Bool.false_eq_true, if_false, Option.some.injEq, Prod.mk.injEq] at h2
      obtain ⟨hdb2, -, -⟩ := h2
      have hlikes2 : db2.likes = db1.likes ++ [(uid, pid)] := by
        by_cases hn : post.user_id = uid
        · simp only [hn, ne_eq, not_true_eq_false, if_false] at hdb2
          rw [← hdb2]
        · simp only [ne_eq, hn, not_false_eq_true, if_true] at hdb2
          rw [← hdb2]
      constructor
      · unfold isLiked
        rw [hlikes2]
        simp [List.any_append]
      · have hone : db.likes.countP (fun l => l.1 == uid && l.2 == pid) = 1 := by
          have hpos : 0 < db.likes.countP (fun l => l.1 == uid && l.2 == pid) := by
            rw [List.countP_pos_iff]
            unfold isLiked at hL
            simpa using List.any_eq_true.mp hL
          omega
        have hsplit : (db.likes.filter
              (fun l => !(l.1 == uid && l.2 == pid))).countP (fun l => l.2 == pid) +
            db.likes.countP (fun l => l.1 == uid && l.2 == pid) =
            db.likes.countP (fun l => l.2 == pid) :=
          countP_filter_not_add db.likes (fun l => l.2 == pid)
            (fun l => l.1 == uid && l.2 == pid)
            (by intro x hx; simp only [Bool.and_eq_true] at hx; exact hx.2)
        unfold likeCount
        rw [hlikes2, hlikes1]
        rw [List.countP_append]
        simp only [List.countP_cons, List.countP_nil, beq_self_eq_true, Bool.and_true,
          if_true]
        omega
  | false =>
      -- first call inserts the like row, second call removes it again
      rw [if_neg (by rw [hL]; simp)] at hdb1
      have hlikes1 : db1.likes = db.likes ++ [(uid, pid)] := by
        by_cases hn : post.user_id = uid
        · simp only [hn, ne_eq, not_true_eq_false, if_false] at hdb1
          rw [← hdb1]
        · simp only [ne_eq, hn, not_false_eq_true, if_true] at hdb1
          rw [← hdb1]
      have hposts1 : db1.posts = db.posts := by
        by_cases hn : post.user_id = uid
        · simp only [hn, ne_eq, not_true_eq_false, if_false] at hdb1
          rw [← hdb1]
        · simp only [ne_eq, hn, not_false_eq_true, if_true] at hdb1
          rw [← hdb1]
      have hL1 : isLiked db1 uid pid = true := by
        unfold isLiked
        rw [hlikes1]
        simp [List.any_append]
      unfold like_post at h2
      rw [hposts1, hp] at h2
      rw [hL1] at h2
      simp only [if_true, Option.some.injEq, Prod.mk.injEq] at h2
      obtain ⟨hdb2, -, -⟩ := h2
      have hnone : ∀ l ∈ db.likes, (l.1 == uid && l.2 == pid) = false := by
        intro l hl
        unfold isLiked at hL
        cases hc : (l.1 == uid && l.2 == pid)
        · rfl
        · have hany : db.likes.any (fun l => l.1 == uid && l.2 == pid) = true :=
            List.any_eq_true.mpr ⟨l, hl, hc⟩
          rw [hL] at hany
          exact absurd hany (by simp)
      have hlikes2 : db2.likes = db.likes := by
        rw [← hdb2]
        show (db1.likes.filter _) = db.likes
        rw [hlikes1, List.filter_append]
        have h1' : db.likes.filter (fun l => !(l.1 == uid && l.2 == pid)) = db.likes :=
          List.filter_eq_self.mpr (by intro a ha; rw [hnone a ha]; rfl)
        have hsing : ([(uid, pid)].filter (fun l => !(l.1 == uid && l.2 == pid))) = [] := by
          simp
        rw [h1', hsing, List.append_nil]
      constructor
      · unfold isLiked at hL ⊢
        rw [hlikes2]
        exact hL
      · unfold likeCount; rw [hlikes2]

/-- One post by user 1, already liked by user 2: the state for the C4
witness. -/
def exDbLike : DB :=
  { users := [⟨1, "alice"⟩, ⟨2, "bob"⟩],
    posts := [{ id := 1, user_id := 1, content := "hi", created_at := 1 }],
    follows := [], blocks := [], mutes := [], likes := [(2, 1)],
    notifications := [], notes := [], ratings := [],
    next_post_id := 2, next_rating_id := 1 }

/-- `exDbLike` after user 2 unlikes post 1. -/
def exDbLike1 : DB := { exDbLike with likes := [] }

/-- `exDbLike1` after user 2 likes post 1 again (author notified). -/
def exDbLike2 : DB :=
  { exDbLike1 with likes := [(2, 1)], notifications := [⟨1, 2, "like", some 1⟩] }

theorem like_toggle_idempotent_witness :
    isLiked exDbLike2 2 1 = isLiked exDbLike 2 1 ∧
    likeCount exDbLike2 1 = likeCount exDbLike 1 :=
  like_toggle_idempotent exDbLike exDbLike1 exDbLike2 2 1 false true 0 1
    (by decide) (by decide) (by decide)

/-- Record updates used by `pin_post` keep a post's identity fields. -/
theorem unpin_fields (u : Nat) (x : Post) :
    (if x.user_id == u then { x with is_pinned := false } else x).id = x.id ∧
    (if x.user_id == u then { x with is_pinned := false } else x).user_id = x.user_id ∧
    (if x.user_id == u then { x with is_pinned := false } else x).is_deleted =
      x.is_deleted := by
  split <;> exact ⟨rfl, rfl, rfl⟩

/-- Record updates used by `pin_post` keep a post's identity fields. -/
theorem repin_fields (pid : Nat) (x : Post) :
    (if x.id == pid then { x with is_pinned := true } else x).id = x.id ∧
    (if x.id == pid then { x with is_pinned := true } else x).user_id = x.user_id ∧
    (if x.id == pid then { x with is_pinned := true } else x).is_deleted =
      x.is_deleted := by
  split <;> exact ⟨rfl, rfl, rfl⟩

/-- A nodup id column bounds the number of rows with a given id by one. -/
theorem countP_id_le_one (l : List Post) (pid : Nat)
    (h : (l.map Post.id).Nodup) :
    l.countP (fun q => q.id == pid) ≤ 1 := by
  have h1 : l.countP (fun q => q.id == pid) =
      (l.map Post.id).countP (fun i => i == pid) := by
    rw [List.countP_map]; rfl
  rw [h1]
  simpa [List.count] using List.nodup_iff_count_le_one.mp h pid

/-- the unpin sweep does not change the id column. -/
theorem unpinAll_map_id (u : Nat) (ps : List Post) :
    (unpinAll u ps).map Post.id = ps.map Post.id := by
  unfold unpinAll
  rw [List.map_map]
  exact List.map_congr_left (fun x _ => (unpin_fields u x).1)

/-- the pin update does not change the id column. -/
theorem setPinned_map_id (p : Nat) (ps : List Post) :
    (setPinned p ps).map Post.id = ps.map Post.id := by
  unfold setPinned
  rw [List.map_map]
  exact List.map_congr_left (fun x _ => (repin_fields p x).1)

/-- `pin_post` does not change the id column of `posts`. -/
theorem pin_post_ids (db db' : DB) (u p : Nat)
    (h : pin_post db u p = some db') :
    db'.posts.map Post.id = db.posts.map Post.id := by
  unfold pin_post at h
  cases hf : db.posts.find? (fun q => q.id == p && q.user_id == u) with
  | none => rw [hf] at h; exact absurd h (by simp)
  | some post =>
      rw [hf] at h
      by_cases hpin : post.is_pinned
      · have hb : (!post.is_pinned) = false := by simp [hpin]
        simp only [hb, Bool.false_eq_true, if_false, Option.some.injEq] at h
        subst h
        exact unpinAll_map_id u db.posts
      · have hb : (!post.is_pinned) = true := by simp [hpin]
        simp only [hb, if_true, Option.some.injEq] at h
        subst h
        show (setPinned p (unpinAll u db.posts)).map Post.id = _
        rw [setPinned_map_id, unpinAll_map_id]

/-- After any successful `pin_post` by `u`, at most one of `u`'s
non-deleted posts is pinned, whatever the prior state: the operation
unpins all of `u`'s posts before possibly pinning the single target row. -/
theorem pin_post_estab (db db' : DB) (u p : Nat)
    (hids : (db.posts.map Post.id).Nodup)
    (h : pin_post db u p = some db') : PinInv db' u := by
  unfold pin_post at h
  cases hf : db.posts.find? (fun q => q.id == p && q.user_id == u) with
  | none => rw [hf] at h; exact absurd h (by simp)
  | some post =>
      rw [hf] at h
      by_cases hpin : post.is_pinned
      · -- toggle off: every one of u's posts ends unpinned
        have hb : (!post.is_pinned) = false := by simp [hpin]
        simp only [hb, Bool.false_eq_true, if_false, Option.some.injEq] at h
        subst h
        unfold PinInv
        have hz : (unpinAll u db.posts).countP
            (fun q => q.user_id == u && !q.is_deleted && q.is_pinned) = 0 := by
          rw [List.countP_eq_zero]
          intro a ha
          unfold unpinAll at ha
          obtain ⟨x, -, rfl⟩ := List.mem_map.mp ha
          by_cases hu : x.user_id == u
          · simp [hu]
          · simp [hu]
        show (unpinAll u db.posts).countP _ ≤ 1
        omega
      · -- pin on: only the row with the target id can end up pinned
        have hb : (!post.is_pinned) = true := by simp [hpin]
        simp only [hb, if_true, Option.some.injEq] at h
        subst h
        unfold PinInv
        have hmono : (setPinned p (unpinAll u db.posts)).countP
            (fun q => q.user_id == u && !q.is_deleted && q.is_pinned) ≤
            (setPinned p (unpinAll u db.posts)).countP (fun q => q.id == p) := by
          apply List.countP_mono_left
          intro a ha hpred
          unfold setPinned unpinAll at ha
          obtain ⟨y, hy, rfl⟩ := List.mem_map.mp ha
          obtain ⟨x, -, rfl⟩ := List.mem_map.mp hy
          by_cases hxid : x.id == p
          · have hid1 : (if x.user_id == u then { x with is_pinned := false }
                else x).id = x.id := (unpin_fields u x).1
            rw [(repin_fields p _).1, hid1]
            exact hxid
          · have hid1 : (if x.user_id == u then { x with is_pinned := false }
                else x).id = x.id := (unpin_fields u x).1
            rw [if_neg (by rw [hid1]; simp_all)] at hpred ⊢
            by_cases hu : x.user_id == u
            · rw [if_pos hu] at hpred
              simp at hpred
            · rw [if_neg hu] at hpred
              simp only [Bool.and_eq_true] at hpred
              exact absurd hpred.1.1 (by simp_all)
        have hcount : (setPinned p (unpinAll u db.posts)).countP
            (fun q => q.id == p) = db.posts.countP (fun q => q.id == p) := by
          unfold setPinned unpinAll
          rw [List.countP_map, List.countP_map]
          apply List.countP_congr
          intro x _
          simp only [Function.comp]
          rw [(repin_fields p _).1, (unpin_fields u x).1]
        show (setPinned p (unpinAll u db.posts)).countP _ ≤ 1
        exact le_trans hmono (by rw [hcount]; exact countP_id_le_one _ _ hids)

/-- A successful `pin_post` by `u` does not change the pinned count of any
other author. -/
theorem pin_post_pres (db db' : DB) (u p a : Nat)
    (hids : (db.posts.map Post.id).Nodup) (hne : a ≠ u)
    (h : pin_post db u p = some db') :
    db'.posts.countP (fun q => q.user_id == a && !q.is_deleted && q.is_pinned) =
    db.posts.countP (fun q => q.user_id == a && !q.is_deleted && q.is_pinned) := by
  unfold pin_post at h
  cases hf : db.posts.find? (fun q => q.id == p && q.user_id == u) with
  | none => rw [hf] at h; exact absurd h (by simp)
  | some post =>
      have hpostmem : post ∈ db.posts := List.mem_of_find?_eq_some hf
      have hpostpred := List.find?_some hf
      simp only [Bool.and_eq_true, beq_iff_eq] at hpostpred
      rw [hf] at h
      by_cases hpin : post.is_pinned
      · have hb : (!post.is_pinned) = false := by simp [hpin]
        simp only [hb, Bool.false_eq_true, if_false, Option.some.injEq] at h
        subst h
        show (unpinAll u db.posts).countP _ = _
        unfold unpinAll
        rw [List.countP_map]
        apply List.countP_congr
        intro x _
        simp only [Function.comp]
        by_cases hu : x.user_id = u
        · simp [hu, Ne.symm hne]
        · simp [hu]
      · have hb : (!post.is_pinned) = true := by simp [hpin]
        simp only [hb, if_true, Option.some.injEq] at h
        subst h
        show (setPinned p (unpinAll u db.posts)).countP _ = _
        unfold setPinned unpinAll
        rw [List.countP_map, List.countP_map]
        apply List.countP_congr
        intro x hx
        simp only [Function.comp]
        by_cases hu : x.user_id = u
        · by_cases hxid : x.id = p
          · simp [hu, hxid, Ne.symm hne]
          · simp [hu, hxid, Ne.symm hne]
        · have hxid : x.id ≠ p := by
            intro hcontra
            have hxeq : x = post :=
              List.inj_on_of_nodup_map hids hx hpostmem (by rw [hcontra, hpostpred.1])
            exact hu (by rw [hxeq, hpostpred.2])
          simp [hu, hxid]

/-- Claim C8: starting from a state whose id column is duplicate-free and
where every author has at most one non-deleted pinned post, any sequence
of pin-toggle requests preserves that bound for every author; moreover a
single successful pin-toggle establishes the bound for the acting author
from any prior state, because it unpins all of the author's posts before
pinning the one target row. -/
theorem pin_uniqueness (db : DB) (calls : List (Nat × Nat))
    (hids : (db.posts.map Post.id).Nodup) (hinv : ∀ a, PinInv db a) :
    (∀ a, PinInv (calls.foldl pinStep db) a) ∧
    (∀ d d' u p, (d.posts.map Post.id).Nodup → pin_post d u p = some d' →
      PinInv d' u) := by
  constructor
  · induction calls generalizing db with
    | nil => simpa using hinv
    | cons c rest ih =>
        simp only [List.foldl_cons]
        cases hp : pin_post db c.1 c.2 with
        | none =>
            have hstep : pinStep db c = db := by unfold pinStep; rw [hp]
            rw [hstep]
            exact ih db hids hinv
        | some d' =>
            have hstep : pinStep db c = d' := by unfold pinStep; rw [hp]
            rw [hstep]
            apply ih d'
            · rw [pin_post_ids db d' c.1 c.2 hp]; exact hids
            · intro a
              by_cases hau : a = c.1
              · subst hau
                exact pin_post_estab db d' c.1 c.2 hids hp
              · unfold PinInv
                rw [pin_post_pres db d' c.1 c.2 a hids hau hp]
                exact hinv a
  · intro d d' u p hnd hp
    exact pin_post_estab d d' u p hnd hp

/-- Two unpinned posts by author 1: the state for the C8 witness. -/
def exDbPin : DB :=
  { users := [⟨1, "alice"⟩],
    posts := [{ id := 1, user_id := 1, content := "a", created_at := 1 },
              { id := 2, user_id := 1, content := "b", created_at := 2 }],
    follows := [], blocks := [], mutes := [], likes := [], notifications := [],
    notes := [], ratings := [], next_post_id := 3, next_rating_id := 1 }

theorem pin_uniqueness_witness :
    (∀ a, PinInv ([(1, 1), (1, 2)].foldl pinStep exDbPin) a) ∧
    (∀ d d' u p, (d.posts.map Post.id).Nodup → pin_post d u p = some d' →
      PinInv d' u) :=
  pin_uniqueness exDbPin [(1, 1), (1, 2)] (by decide)
    (by intro a; unfold PinInv exDbPin; simp)

/-- the rating upsert leaves the notes table unchanged. -/
theorem upsertRating_notes (db : DB) (uid nid : Nat) (v : String) :
    (upsertRating db uid nid v).notes = db.notes := by
  unfold upsertRating
  split
  · split <;> rfl
  · rfl

/-- the overwrite path of the rating upsert, as an equation on `ratings`. -/
theorem upsertRating_ratings_update (db : DB) (uid nid : Nat) (v : String) (ex : Rating)
    (hf : db.ratings.find? (fun r => r.note_id == nid && r.user_id == uid) = some ex)
    (hne : ex.rating ≠ v) :
    (upsertRating db uid nid v).ratings =
      db.ratings.map (fun r => if r.id == ex.id then { r with rating := v } else r) := by
  unfold upsertRating
  rw [hf]
  simp only []
  rw [if_pos hne]

/-- the no-op path of the rating upsert, as an equation on the state. -/
theorem upsertRating_same (db : DB) (uid nid : Nat) (v : String) (ex : Rating)
    (hf : db.ratings.find? (fun r => r.note_id == nid && r.user_id == uid) = some ex)
    (hne : ¬ ex.rating ≠ v) :
    upsertRating db uid nid v = db := by
  unfold upsertRating
  rw [hf]
  simp only []
  rw [if_neg hne]

/-- the insert path of the rating upsert, as an equation on `ratings`. -/
theorem upsertRating_ratings_insert (db : DB) (uid nid : Nat) (v : String)
    (hf : db.ratings.find? (fun r => r.note_id == nid && r.user_id == uid) = none) :
    (upsertRating db uid nid v).ratings =
      db.ratings ++ [⟨db.next_rating_id, nid, uid, v⟩] := by
  unfold upsertRating
  rw [hf]

/-- the rating upsert preserves the `UNIQUE(note_id, user_id)` constraint. -/
theorem upsertRating_pairs_nodup (db : DB) (uid nid : Nat) (v : String)
    (h : RatingPairsNodup db) : RatingPairsNodup (upsertRating db uid nid v) := by
  unfold RatingPairsNodup at *
  cases hf : db.ratings.find? (fun r => r.note_id == nid && r.user_id == uid) with
  | some ex =>
      by_cases hrv : ex.rating ≠ v
      · rw [upsertRating_ratings_update db uid nid v ex hf hrv]
        rw [List.map_map]
        have hcomp : ((fun r : Rating => (r.note_id, r.user_id)) ∘
            fun r => if r.id == ex.id then { r with rating := v } else r) =
            fun r : Rating => (r.note_id, r.user_id) := by
          funext r
          simp only [Function.comp]
          split <;> rfl
        rw [hcomp]
        exact h
      · rw [upsertRating_same db uid nid v ex hf hrv]
        exact h
  | none =>
      rw [upsertRating_ratings_insert db uid nid v hf]
      rw [List.map_append, List.nodup_append]
      refine ⟨h, by simp, ?_⟩
      intro x hx hx'
      simp only [List.map_cons, List.map_nil, List.mem_singleton] at hx'
      subst hx'
      obtain ⟨r, hr, hpair⟩ := List.mem_map.mp hx
      have hnone := List.find?_eq_none.mp hf r hr
      apply hnone
      have h1 : r.note_id = nid := congrArg Prod.fst hpair
      have h2 : r.user_id = uid := congrArg Prod.snd hpair
      simp [h1, h2]

/-- the rating upsert preserves the rating-value CHECK constraint. -/
theorem upsertRating_values (db : DB) (uid nid : Nat) (v : String)
    (hv : v = "helpful" ∨ v = "not_helpful")
    (h : RatingValuesValid db) : RatingValuesValid (upsertRating db uid nid v) := by
  unfold RatingValuesValid at *
  cases hf : db.ratings.find? (fun r => r.note_id == nid && r.user_id == uid) with
  | some ex =>
      by_cases hrv : ex.rating ≠ v
      · rw [upsertRating_ratings_update db uid nid v ex hf hrv]
        intro r hr
        obtain ⟨r0, hr0, rfl⟩ := List.mem_map.mp hr
        by_cases hid : r0.id == ex.id
        · rw [if_pos hid]
          exact hv
        · rw [if_neg hid]
          exact h r0 hr0
      · rw [upsertRating_same db uid nid v ex hf hrv]
        exact h
  | none =>
      rw [upsertRating_ratings_insert db uid nid v hf]
      intro r hr
      rcases List.mem_append.mp hr with hr | hr
      · exact h r hr
      · simp only [List.mem_singleton] at hr
        subst hr
        exact hv

/-- Counting helper: when every rating value is helpful or not-helpful,
the two per-value counts for a note sum to the note's row count. -/
theorem countP_value_split (l : List Rating) (nid : Nat)
    (hval : ∀ r ∈ l, r.rating = "helpful" ∨ r.rating = "not_helpful") :
    l.countP (fun r => r.note_id == nid && r.rating == "helpful") +
    l.countP (fun r => r.note_id == nid && r.rating == "not_helpful") =
    l.countP (fun r => r.note_id == nid) := by
  induction l with
  | nil => simp
  | cons r rs ih =>
      have hr := hval r (by simp)
      have hrs : ∀ x ∈ rs, x.rating = "helpful" ∨ x.rating = "not_helpful" :=
        fun x hx => hval x (by simp [hx])
      have hne : ("helpful" : String) ≠ "not_helpful" := by decide
      simp only [List.countP_cons]
      rcases hr with hv | hv <;>
        cases hn : (r.note_id == nid) <;>
          simp [hv, hn, hne, Ne.symm hne, ← ih hrs] <;> omega

/-- Distinct raters selected by a predicate confined to one note are
counted exactly by `countP`, given the uniqueness constraint. -/
theorem dedup_users_eq_countP (l : List Rating) (nid : Nat) (q : Rating → Bool)
    (hnd : (l.map (fun r => (r.note_id, r.user_id))).Nodup)
    (himp : ∀ r, q r = true → r.note_id = nid) :
    (((l.filter q).map (fun r => r.user_id)).dedup).length = l.countP q := by
  have hsub : (l.filter q).Sublist l := List.filter_sublist l
  have hnd2 : ((l.filter q).map (fun r => (r.note_id, r.user_id))).Nodup :=
    (hsub.map _).nodup hnd
  have hndel : (l.filter q).Nodup := hnd2.of_map _
  have hndu : ((l.filter q).map (fun r => r.user_id)).Nodup := by
    apply List.Nodup.map_on _ hndel
    intro x hx y hy hxy
    have hxq := (List.mem_filter.mp hx).2
    have hyq := (List.mem_filter.mp hy).2
    have hxn := himp x hxq
    have hyn := himp y hyq
    exact List.inj_on_of_nodup_map hnd2 hx hy (by rw [hxn, hyn, hxy])
  rw [List.dedup_eq_self.mpr hndu, List.length_map, ← List.countP_eq_length_filter]

/-- Rows of `setNoteCounts` with the target id carry the new counts and
keep their status. -/
theorem setNoteCounts_mem (nid H NH : Nat) (ns : List Note) :
    ∀ m ∈ setNoteCounts nid H NH ns, m.id = nid →
      m.helpful_count = H ∧ m.not_helpful_count = NH ∧
      ∃ n ∈ ns, n.id = nid ∧ m.status = n.status := by
  intro m hm hid
  unfold setNoteCounts at hm
  obtain ⟨n, hn, rfl⟩ := List.mem_map.mp hm
  by_cases h : n.id == nid
  · rw [if_pos h] at hid ⊢
    exact ⟨rfl, rfl, n, hn, by simpa using h, rfl⟩
  · rw [if_neg h] at hid
    exact absurd hid (by simpa using h)

/-- Rows of `approveNote` with the target id are approved and keep their
counts. -/
theorem approveNote_mem (nid : Nat) (ns : List Note) :
    ∀ m ∈ approveNote nid ns, m.id = nid →
      m.status = "approved" ∧
      ∃ n ∈ ns, n.id = nid ∧ m.helpful_count = n.helpful_count ∧
        m.not_helpful_count = n.not_helpful_count := by
  intro m hm hid
  unfold approveNote at hm
  obtain ⟨n, hn, rfl⟩ := List.mem_map.mp hm
  by_cases h : n.id == nid
  · rw [if_pos h] at hid ⊢
    exact ⟨rfl, n, hn, by simpa using h, rfl, rfl⟩
  · rw [if_neg h] at hid
    exact absurd hid (by simpa using h)

/-- Decomposition of a successful `rate_community_note` call: the rating
value was valid, the ratings table is the upserted one, and the notes
table carries the recomputed counts, with the approval update applied
exactly when the recomputed helpful count reaches 3. -/
theorem rate_shape (db db' : DB) (uid nid : Nat) (v : String)
    (h : rate_community_note db uid nid v = some db') :
    (v = "helpful" ∨ v = "not_helpful") ∧
    db'.ratings = (upsertRating db uid nid v).ratings ∧
    db'.notes =
      (if ratingCount (upsertRating db uid nid v) nid "helpful" ≥ 3 then
        approveNote nid
          (setNoteCounts nid (ratingCount (upsertRating db uid nid v) nid "helpful")
            (ratingCount (upsertRating db uid nid v) nid "not_helpful") db.notes)
      else
        setNoteCounts nid (ratingCount (upsertRating db uid nid v) nid "helpful")
          (ratingCount (upsertRating db uid nid v) nid "not_helpful") db.notes) := by
  unfold rate_community_note at h
  cases hfn : db.notes.find? (fun n => n.id == nid) with
  | none => rw [hfn] at h; exact absurd h (by simp)
  | some note0 =>
      rw [hfn] at h
      cases hvb : (!(v == "helpful" || v == "not_helpful")) with
      | true =>
          rw [if_pos hvb] at h
          exact absurd h (by simp)
      | false =>
          rw [if_neg (by simp [hvb])] at h
          have hv : v = "helpful" ∨ v = "not_helpful" := by
            have : (v == "helpful" || v == "not_helpful") = true := by
              revert hvb
              cases (v == "helpful" || v == "not_helpful") <;> simp
            simpa using this
          refine ⟨hv, ?_⟩
          by_cases hc : ratingCount (upsertRating db uid nid v) nid "helpful" ≥ 3
          · rw [if_pos hc] at h
            rw [if_pos hc]
            injection h with hX
            subst hX
            exact ⟨rfl, by rw [upsertRating_notes]⟩
          · rw [if_neg hc] at h
            rw [if_neg hc]
            injection h with hX
            subst hX
            exact ⟨rfl, by rw [upsertRating_notes]⟩

/-- Claim C9: after every successful rate-note call, the stored
helpful and not-helpful counts of the rated note sum to the number of
distinct users holding a rating for it, given the table's uniqueness and
value-check constraints on the starting state. -/
theorem rating_count_consistency (db db' : DB) (uid nid : Nat) (v : String)
    (hnd : RatingPairsNodup db) (hval : RatingValuesValid db)
    (h : rate_community_note db uid nid v = some db') :
    ∀ m ∈ db'.notes, m.id = nid →
      m.helpful_count + m.not_helpful_count = distinctRaters db' nid := by
  obtain ⟨hv, hrat, hnotes⟩ := rate_shape db db' uid nid v h
  have hnd1 : RatingPairsNodup (upsertRating db uid nid v) :=
    upsertRating_pairs_nodup db uid nid v hnd
  have hval1 : RatingValuesValid (upsertRating db uid nid v) :=
    upsertRating_values db uid nid v hv hval
  intro m hm hid
  rw [hnotes] at hm
  have hcounts : m.helpful_count = ratingCount (upsertRating db uid nid v) nid "helpful" ∧
      m.not_helpful_count = ratingCount (upsertRating db uid nid v) nid "not_helpful" := by
    by_cases hc : ratingCount (upsertRating db uid nid v) nid "helpful" ≥ 3
    · rw [if_pos hc] at hm
      obtain ⟨-, n, hn, hnid, h1, h2⟩ := approveNote_mem nid _ m hm hid
      obtain ⟨hH, hNH, -⟩ := setNoteCounts_mem nid _ _ _ n hn hnid
      exact ⟨h1.trans hH, h2.trans hNH⟩
    · rw [if_neg hc] at hm
      obtain ⟨hH, hNH, -⟩ := setNoteCounts_mem nid _ _ _ m hm hid
      exact ⟨hH, hNH⟩
  rw [hcounts.1, hcounts.2]
  unfold distinctRaters
  rw [hrat]
  unfold ratingCount
  rw [dedup_users_eq_countP (upsertRating db uid nid v).ratings nid
    (fun r => r.note_id == nid) hnd1 (by intro r hr; simpa using hr)]
  exact countP_value_split (upsertRating db uid nid v).ratings nid hval1

/-- Claim C1: after every successful rate-note call, the rated note's
status is approved exactly when the recomputed count of distinct helpful
raters is at least 3; below the threshold the status keeps its prior
value, so 2 helpful ratings leave a proposed note proposed, and
re-triggering on an approved note leaves it approved. -/
theorem consensus_auto_approval (db db' : DB) (uid nid : Nat) (v : String)
    (note0 : Note)
    (hnotes : (db.notes.map Note.id).Nodup)
    (hnd : RatingPairsNodup db)
    (hfind : db.notes.find? (fun n => n.id == nid) = some note0)
    (h : rate_community_note db uid nid v = some db') :
    ∀ m ∈ db'.notes, m.id = nid →
      m.status = if distinctRatersWith db' nid "helpful" ≥ 3 then "approved"
        else note0.status := by
  obtain ⟨hv, hrat, hnotes'⟩ := rate_shape db db' uid nid v h
  have hnd1 : RatingPairsNodup (upsertRating db uid nid v) :=
    upsertRating_pairs_nodup db uid nid v hnd
  have hHelp : distinctRatersWith db' nid "helpful" =
      ratingCount (upsertRating db uid nid v) nid "helpful" := by
    unfold distinctRatersWith
    rw [hrat]
    unfold ratingCount
    exact dedup_users_eq_countP (upsertRating db uid nid v).ratings nid
      (fun r => r.note_id == nid && r.rating == "helpful") hnd1
      (by intro r hr; simp only [Bool.and_eq_true, beq_iff_eq] at hr; exact hr.1)
  intro m hm hid
  rw [hnotes'] at hm
  rw [hHelp]
  by_cases hc : ratingCount (upsertRating db uid nid v) nid "helpful" ≥ 3
  · rw [if_pos hc] at hm ⊢
    exact (approveNote_mem nid _ m hm hid).1
  · rw [if_neg hc] at hm ⊢
    obtain ⟨-, -, n, hn, hnid, hstat⟩ := setNoteCounts_mem nid _ _ _ m hm hid
    have hn0 : n = note0 := by
      have h0mem : note0 ∈ db.notes := List.mem_of_find?_eq_some hfind
      have h0id : note0.id = nid := by simpa using List.find?_some hfind
      exact List.inj_on_of_nodup_map hnotes hn h0mem (by rw [hnid, h0id])
    rw [hstat, hn0]

/-- One proposed note with two helpful ratings, about to receive a third:
the state for the C1 and C9 witnesses. -/
def exDbNote : DB :=
  { users := [⟨1, "amy"⟩, ⟨2, "ben"⟩, ⟨3, "cat"⟩, ⟨4, "dan"⟩],
    posts := [{ id := 1, user_id := 1, content := "p", created_at := 1 }],
    follows := [], blocks := [], mutes := [], likes := [], notifications := [],
    notes := [⟨1, 1, 1, "proposed", 2, 0⟩],
    ratings := [⟨1, 1, 2, "helpful"⟩, ⟨2, 1, 3, "helpful"⟩],
    next_post_id := 2, next_rating_id := 3 }

/-- `exDbNote` after user 4 rates note 1 helpful. -/
def exDbNoteAfter : DB := (rate_community_note exDbNote 4 1 "helpful").getD exDbNote

/-- The note row of `exDbNote` before the rating. -/
def exNote0 : Note := ⟨1, 1, 1, "proposed", 2, 0⟩

/-- The note row of `exDbNoteAfter`: approved with counts 3 and 0. -/
def exNoteAfter : Note := ⟨1, 1, 1, "approved", 3, 0⟩

theorem consensus_auto_approval_witness :
    exNoteAfter.status =
      if distinctRatersWith exDbNoteAfter 1 "helpful" ≥ 3 then "approved"
      else exNote0.status :=
  consensus_auto_approval exDbNote exDbNoteAfter 4 1 "helpful" exNote0
    (by decide) (by decide) (by decide) (by decide) exNoteAfter
    (by decide) (by decide)

theorem rating_count_consistency_witness :
    exNoteAfter.helpful_count + exNoteAfter.not_helpful_count =
      distinctRaters exDbNoteAfter 1 :=
  rating_count_consistency exDbNote exDbNoteAfter 4 1 "helpful"
    (by decide) (by decide) (by decide) exNoteAfter (by decide) (by decide)

/-- the upserted ratings table always holds a row with the caller's
submitted value. -/
theorem upsertRating_has_row (db : DB) (uid nid : Nat) (v : String) :
    ∃ r ∈ (upsertRating db uid nid v).ratings,
      r.note_id = nid ∧ r.user_id = uid ∧ r.rating = v := by
  cases hf : db.ratings.find? (fun r => r.note_id == nid && r.user_id == uid) with
  | none =>
      rw [upsertRating_ratings_insert db uid nid v hf]
      exact ⟨⟨db.next_rating_id, nid, uid, v⟩, by simp, rfl, rfl, rfl⟩
  | some ex =>
      have hexp := List.find?_some hf
      simp only [Bool.and_eq_true, beq_iff_eq] at hexp
      have hexm := List.mem_of_find?_eq_some hf
      by_cases hrv : ex.rating ≠ v
      · rw [upsertRating_ratings_update db uid nid v ex hf hrv]
        refine ⟨{ ex with rating := v }, ?_, hexp.1, hexp.2, rfl⟩
        exact List.mem_map.mpr ⟨ex, hexm, by simp⟩
      · rw [upsertRating_same db uid nid v ex hf hrv]
        exact ⟨ex, hexm, hexp.1, hexp.2, not_ne_iff.mp hrv⟩

/-- Claim C10 (amended): rating one's own community note is not rejected —
the code has no author check, so the author's rate-note call succeeds and
the rating is recorded like any other user's. -/
theorem own_note_rating_permitted (db : DB) (uid nid : Nat) (v : String)
    (note0 : Note)
    (hfind : db.notes.find? (fun n => n.id == nid) = some note0)
    (hown : note0.author_id = uid)
    (hv : (v == "helpful" || v == "not_helpful") = true) :
    ∃ db', rate_community_note db uid nid v = some db' ∧
      ∃ r ∈ db'.ratings, r.note_id = nid ∧ r.user_id = uid ∧ r.rating = v := by
  have hsome : (rate_community_note db uid nid v).isSome := by
    unfold rate_community_note
    simp only [hfind]
    rw [hv]
    simp only [Bool.not_true, Bool.false_eq_true, if_false]
    split <;> rfl
  obtain ⟨db', hdb'⟩ := Option.isSome_iff_exists.mp hsome
  refine ⟨db', hdb', ?_⟩
  obtain ⟨-, hrat, -⟩ := rate_shape db db' uid nid v hdb'
  rw [hrat]
  exact upsertRating_has_row db uid nid v

/-- One note authored by user 7 on user 7's own post, unrated: the state
for the C10 counterexample and witness. -/
def exDbOwn : DB :=
  { users := [⟨7, "amy"⟩],
    posts := [{ id := 1, user_id := 7, content := "p", created_at := 1 }],
    follows := [], blocks := [], mutes := [], likes := [], notifications := [],
    notes := [⟨1, 1, 7, "proposed", 0, 0⟩], ratings := [],
    next_post_id := 2, next_rating_id := 1 }

/-- Claim C10 counterexample: user 7 rates their own note 1; the request
is not rejected with Forbidden — it succeeds and the ratings table
changes, contradicting the claim that the state stays unchanged. -/
theorem own_note_rating_counterexample :
    (rate_community_note exDbOwn 7 1 "helpful").isSome = true ∧
    ((rate_community_note exDbOwn 7 1 "helpful").getD exDbOwn).ratings ≠
      exDbOwn.ratings := by
  decide

theorem own_note_rating_permitted_witness :
    ∃ db', rate_community_note exDbOwn 7 1 "helpful" = some db' ∧
      ∃ r ∈ db'.ratings, r.note_id = 1 ∧ r.user_id = 7 ∧ r.rating = "helpful" :=
  own_note_rating_permitted exDbOwn 7 1 "helpful" ⟨1, 1, 7, "proposed", 0, 0⟩
    (by decide) (by decide) (by decide)

/-- every generated mention notification has type mention and goes to a
user other than the actor. -/
theorem mentionNotifs_mem (db : DB) (uid postRef : Nat) (content : String) :
    ∀ nf ∈ mentionNotifs db uid postRef content,
      nf.ntype = "mention" ∧ nf.user_id ≠ uid := by
  intro nf hnf
  unfold mentionNotifs at hnf
  obtain ⟨u, -, hfu⟩ := List.mem_filterMap.mp hnf
  by_cases h : u.id ≠ uid
  · rw [if_pos h] at hfu
    injection hfu with hfu
    subst hfu
    exact ⟨rfl, h⟩
  · rw [if_neg h] at hfu
    exact absurd hfu (by simp)

/-- Claim C5 (amended): a user acting on their own post triggers no
like, reply, or repost notification, and the action succeeds with the
derived count increased; a reply's content can still generate mention
notifications, each of type mention and addressed to a user other than
the actor. -/
theorem self_action_suppression (db : DB) (uid pid now : Nat)
    (content : String) (post : Post)
    (hp : db.posts.find? (fun q => q.id == pid && !q.is_deleted) = some post)
    (hown : post.user_id = uid) :
    (isLiked db uid pid = false →
      like_post db uid pid =
        some ({ db with likes := db.likes ++ [(uid, pid)] }, true,
          likeCount db pid + 1)) ∧
    (db.posts.find? (fun q => q.user_id == uid && q.repost_id == some pid) = none →
      ∃ db', repost db uid pid now = some db' ∧
        db'.notifications = db.notifications ∧
        repostCount db' pid = repostCount db pid + 1) ∧
    ((content.length == 0 || content.length > 500) = false →
      ∃ db', reply db uid pid content now = some db' ∧
        db'.notifications =
          db.notifications ++ mentionNotifs db uid db.next_post_id content ∧
        (∀ nf ∈ mentionNotifs db uid db.next_post_id content,
          nf.ntype = "mention" ∧ nf.user_id ≠ uid) ∧
        replyCount db' pid = replyCount db pid + 1) := by
  refine ⟨?_, ?_, ?_⟩
  · intro hlike
    unfold like_post
    simp only [hp]
    rw [hlike]
    simp only [Bool.false_eq_true, if_false, Bool.not_false]
    rw [if_neg (not_ne_iff.mpr hown)]
    unfold likeCount
    rw [List.countP_append]
    simp
  · intro hre
    unfold repost
    simp only [hp, hre]
    rw [if_neg (not_ne_iff.mpr hown)]
    refine ⟨_, rfl, by simp, ?_⟩
    unfold repostCount
    rw [List.countP_append]
    simp
  · intro hlen
    unfold reply
    simp only [hp]
    rw [if_neg (by simp [hlen])]
    rw [if_neg (not_ne_iff.mpr hown)]
    refine ⟨_, rfl, ?_, mentionNotifs_mem db uid db.next_post_id content, ?_⟩
    · show db.notifications ++ [] ++ _ = _
      rw [List.append_nil]
    · unfold replyCount
      rw [List.countP_append]
      simp

/-- Users alice (1) and bob (2); alice has post 1: the state for the C5
counterexample and witness. -/
def exDbReply : DB :=
  { users := [⟨1, "alice"⟩, ⟨2, "bob"⟩],
    posts := [{ id := 1, user_id := 1, content := "p1", created_at := 1 }],
    follows := [], blocks := [], mutes := [], likes := [], notifications := [],
    notes := [], ratings := [], next_post_id := 2, next_rating_id := 1 }

/-- Claim C5 counterexample: alice replies to her own post 1 with the
content at-bob; the reply succeeds and creates one notification (a
mention to bob), so replying to one's own post does not always create
zero notification records. -/
theorem notification_suppression_counterexample :
    (reply exDbReply 1 1 "@bob" 2).isSome = true ∧
    ((reply exDbReply 1 1 "@bob" 2).getD exDbReply).notifications.length =
      exDbReply.notifications.length + 1 := by
  decide

/-- membership of a pair list tested by component equality. -/
theorem any_pair_eq (l : List (Nat × Nat)) (x y : Nat) :
    l.any (fun e => e.1 == x && e.2 == y) = true ↔ (x, y) ∈ l := by
  rw [List.any_eq_true]
  constructor
  · rintro ⟨e, he, hpred⟩
    simp only [Bool.and_eq_true, beq_iff_eq] at hpred
    rwa [show (x, y) = e from by rw [← hpred.1, ← hpred.2]]
  · intro hmem
    exact ⟨(x, y), hmem, by simp⟩

/-- the anti-join test of the feed query, as non-membership. -/
theorem not_any_pair (l : List (Nat × Nat)) (x y : Nat) :
    (!l.any (fun e => e.1 == x && e.2 == y)) = true ↔ (x, y) ∉ l := by
  rw [Bool.not_eq_true']
  constructor
  · intro h hc
    have h2 := (any_pair_eq l x y).mpr hc
    rw [h] at h2
    exact Bool.false_ne_true h2
  · intro h
    cases hany : l.any (fun e => e.1 == x && e.2 == y)
    · rfl
    · exact absurd ((any_pair_eq l x y).mp hany) h

/-- The candidate condition the claim states for the home timeline:
authored by the viewer or a followee, not soft-deleted, with the authors
the viewer mutes or blocks excluded and, in addition, the authors who
block the viewer excluded. -/
def specHomeCond (db : DB) (viewer : Nat) (p : Post) : Prop :=
  p.is_deleted = false ∧
  (p.user_id = viewer ∨ (viewer, p.user_id) ∈ db.follows) ∧
  (viewer, p.user_id) ∉ db.mutes ∧
  (viewer, p.user_id) ∉ db.blocks ∧
  (p.user_id, viewer) ∉ db.blocks

instance (db : DB) (viewer : Nat) (p : Post) : Decidable (specHomeCond db viewer p) := by
  unfold specHomeCond; infer_instance

/-- The ordering the claim states for the home timeline: creation time
descending with ties broken by post id descending. -/
def specHomeOrder (L : List Post) : Prop :=
  L.Pairwise (fun a b => b.created_at < a.created_at ∨
    (b.created_at = a.created_at ∧ b.id < a.id))

instance (L : List Post) : Decidable (specHomeOrder L) := by
  unfold specHomeOrder; infer_instance

/-- characterization of the home-timeline WHERE clause on a stored row. -/
theorem homeCandidate_iff (db : DB) (viewer : Nat) (p : Post)
    (hmem : p ∈ db.posts) (hfk : PostAuthorsExist db) :
    homeCandidate db viewer p = true ↔
      p.is_deleted = false ∧
      (viewer, p.user_id) ∉ db.mutes ∧
      (viewer, p.user_id) ∉ db.blocks ∧
      (p.user_id = viewer ∨ (viewer, p.user_id) ∈ db.follows) := by
  obtain ⟨u, hu, huid⟩ := hfk p hmem
  have husers : (db.users.any fun w => w.id == p.user_id) = true :=
    List.any_eq_true.mpr ⟨u, hu, by simp [huid]⟩
  unfold homeCandidate
  simp only [Bool.and_eq_true]
  constructor
  · rintro ⟨⟨⟨⟨hdel, -⟩, hmute⟩, hblk⟩, hfol⟩
    refine ⟨by simpa using hdel, (not_any_pair _ _ _).mp hmute,
      (not_any_pair _ _ _).mp hblk, ?_⟩
    rw [Bool.or_eq_true] at hfol
    rcases hfol with hv | hf
    · exact Or.inl (by simpa using hv)
    · exact Or.inr ((any_pair_eq _ _ _).mp hf)
  · rintro ⟨hdel, hmute, hblk, hfol⟩
    refine ⟨⟨⟨⟨by simp [hdel], husers⟩, (not_any_pair _ _ _).mpr hmute⟩,
      (not_any_pair _ _ _).mpr hblk⟩, ?_⟩
    rw [Bool.or_eq_true]
    rcases hfol with hv | hf
    · exact Or.inl (by simp [hv])
    · exact Or.inr ((any_pair_eq _ _ _).mpr hf)

/-- Claim C2 (amended): any sequence the home-timeline query may return
for a logged-in viewer consists exactly of the non-deleted posts authored
by the viewer or a followee, excluding authors the viewer mutes or blocks
and — in any state satisfying the block-implies-no-follow invariant that
the block and follow operations maintain — also excluding authors who
block the viewer; it is ordered by creation time descending, and every
page is a gap-free slice of it.  The relative order of posts with equal
creation time is not constrained by the query. -/
theorem home_timeline_content (db : DB) (viewer : Nat) (L : List Post)
    (page per_page : Nat)
    (hfk : PostAuthorsExist db) (hinv : BlockFollowInv db)
    (hL : homeRows db viewer L) :
    (∀ p, p ∈ L ↔ p ∈ db.posts ∧ specHomeCond db viewer p) ∧
    L.Pairwise (fun a b => b.created_at ≤ a.created_at) ∧
    (∀ p ∈ feedPage L page per_page, p ∈ db.posts ∧ specHomeCond db viewer p) := by
  obtain ⟨hperm, hsorted⟩ := hL
  have hmem : ∀ p, p ∈ L ↔ p ∈ db.posts ∧ specHomeCond db viewer p := by
    intro p
    rw [hperm.mem_iff, List.mem_filter]
    constructor
    · rintro ⟨hpm, hcand⟩
      obtain ⟨hdel, hmute, hblk, hfol⟩ := (homeCandidate_iff db viewer p hpm hfk).mp hcand
      refine ⟨hpm, hdel, hfol, hmute, hblk, ?_⟩
      intro hrev
      obtain ⟨hne, -, hf2⟩ := hinv (p.user_id, viewer) hrev
      rcases hfol with hv | hf
      · exact hne hv
      · exact hf2 hf
    · rintro ⟨hpm, hdel, hfol, hmute, hblk, -⟩
      exact ⟨hpm, (homeCandidate_iff db viewer p hpm hfk).mpr ⟨hdel, hmute, hblk, hfol⟩⟩
  refine ⟨hmem, hsorted, ?_⟩
  intro p hp
  exact (hmem p).mp (List.mem_of_mem_drop (List.mem_of_mem_take hp))

/-- Claim C7 (amended): any sequence the profile posts query may return
for a subject consists exactly of the subject's own non-soft-deleted
posts — replies included, since the query has no `parent_id` filter —
ordered pinned-first, then by creation time descending, and the rendered
page is its first 50 rows. -/
theorem profile_timeline_content (db : DB) (s : Nat) (L : List Post)
    (hfk : PostAuthorsExist db)
    (hL : profileRows db s L) :
    (∀ p, p ∈ L ↔ p ∈ db.posts ∧ p.user_id = s ∧ p.is_deleted = false) ∧
    L.Pairwise profileKeyLe ∧
    (∀ p ∈ L.take 50, p ∈ db.posts ∧ p.user_id = s ∧ p.is_deleted = false) := by
  obtain ⟨hperm, hsorted⟩ := hL
  have hmem : ∀ p, p ∈ L ↔ p ∈ db.posts ∧ p.user_id = s ∧ p.is_deleted = false := by
    intro p
    rw [hperm.mem_iff, List.mem_filter]
    unfold profileCandidate
    constructor
    · rintro ⟨hpm, hcand⟩
      simp only [Bool.and_eq_true, beq_iff_eq] at hcand
      exact ⟨hpm, hcand.1.1, by simpa using hcand.1.2⟩
    · rintro ⟨hpm, hus, hdel⟩
      obtain ⟨u, hu, huid⟩ := hfk p hpm
      refine ⟨hpm, ?_⟩
      simp only [Bool.and_eq_true, beq_iff_eq]
      exact ⟨⟨hus, by simp [hdel]⟩, List.any_eq_true.mpr ⟨u, hu, by simp [huid]⟩⟩
  exact ⟨hmem, hsorted, fun p hp => (hmem p).mp (List.mem_of_mem_take hp)⟩

/-- A reply (non-null `parent_id`) by user 1: the row of the C7
counterexample. -/
def exReplyPost : Post :=
  { id := 2, user_id := 1, content := "r", parent_id := some 1, created_at := 5 }

/-- The state holding only the reply `exReplyPost`. -/
def exDbProf : DB :=
  { users := [⟨1, "alice"⟩], posts := [exReplyPost],
    follows := [], blocks := [], mutes := [], likes := [], notifications := [],
    notes := [], ratings := [], next_post_id := 3, next_rating_id := 1 }

/-- Claim C7 counterexample: the profile posts query for subject 1 returns
the subject's reply (a row with non-null `parent_id`), so the profile
timeline is not restricted to non-reply posts as claimed. -/
theorem profile_timeline_counterexample :
    profileRows exDbProf 1 [exReplyPost] ∧
    ¬ (∀ p ∈ [exReplyPost], p.parent_id = none) := by
  decide

theorem profile_timeline_content_witness :
    (∀ p, p ∈ [exReplyPost] ↔
      p ∈ exDbProf.posts ∧ p.user_id = 1 ∧ p.is_deleted = false) ∧
    List.Pairwise profileKeyLe [exReplyPost] ∧
    (∀ p ∈ [exReplyPost].take 50,
      p ∈ exDbProf.posts ∧ p.user_id = 1 ∧ p.is_deleted = false) :=
  profile_timeline_content exDbProf 1 [exReplyPost] (by decide) (by decide)

/-- Claim C6 (amended): with A the author of non-deleted post P1, B a
follower of A with no mute or block toward A, and C a blocker of A — every
home timeline the query may return for B contains P1, every home timeline
for C excludes P1, but every profile view of A (whoever the viewer is,
including C) contains P1, because the profile query applies no block
filter. -/
theorem feed_block_visibility (db : DB) (a b c : Nat) (p1 : Post)
    (hfk : PostAuthorsExist db)
    (hmem : p1 ∈ db.posts) (hauth : p1.user_id = a) (hdel : p1.is_deleted = false)
    (hfol : (b, a) ∈ db.follows) (hblk : (c, a) ∈ db.blocks)
    (hnomute : (b, a) ∉ db.mutes) (hnoblk : (b, a) ∉ db.blocks) :
    (∀ L, homeRows db b L → p1 ∈ L) ∧
    (∀ L, homeRows db c L → p1 ∉ L) ∧
    (∀ L, profileRows db a L → p1 ∈ L) := by
  refine ⟨?_, ?_, ?_⟩
  · intro L hL
    rw [hL.1.mem_iff, List.mem_filter]
    refine ⟨hmem, (homeCandidate_iff db b p1 hmem hfk).mpr ?_⟩
    exact ⟨hdel, by rwa [hauth], by rwa [hauth], Or.inr (by rwa [hauth])⟩
  · intro L hL hc
    rw [hL.1.mem_iff, List.mem_filter] at hc
    have hchar := (homeCandidate_iff db c p1 hmem hfk).mp hc.2
    exact hchar.2.2.1 (by rwa [hauth])
  · intro L hL
    rw [hL.1.mem_iff, List.mem_filter]
    obtain ⟨u, hu, huid⟩ := hfk p1 hmem
    refine ⟨hmem, ?_⟩
    unfold profileCandidate
    simp only [Bool.and_eq_true, beq_iff_eq]
    exact ⟨⟨hauth, by simp [hdel]⟩, List.any_eq_true.mpr ⟨u, hu, by simp [huid]⟩⟩

/-- The post of the C6 scenario, authored by user 1 (A). -/
def exP6 : Post := { id := 1, user_id := 1, content := "p1", created_at := 1 }

/-- The C6 scenario state: A (1) wrote `exP6`, B (2) follows A, C (3)
blocks A. -/
def exDb6 : DB :=
  { users := [⟨1, "ann"⟩, ⟨2, "bob"⟩, ⟨3, "cal"⟩], posts := [exP6],
    follows := [(2, 1)], blocks := [(3, 1)], mutes := [], likes := [],
    notifications := [], notes := [], ratings := [],
    next_post_id := 2, next_rating_id := 1 }

/-- Claim C6 counterexample: in the scenario where C (3) blocks A (1), the
profile posts query for A still returns A's post P1 — the query has no
block filter — so C's profile view of A does contain P1, contradicting
the claim that it never does. -/
theorem feed_block_visibility_counterexample :
    profileRows exDb6 1 [exP6] ∧ exP6 ∈ [exP6].take 50 := by
  decide

theorem feed_block_visibility_witness :
    exP6 ∈ [exP6] ∧ exP6 ∉ ([] : List Post) ∧ exP6 ∈ [exP6] := by
  have h := feed_block_visibility exDb6 1 2 3 exP6 (by decide) (by decide)
    (by decide) (by decide) (by decide) (by decide) (by decide) (by decide)
  exact ⟨h.1 [exP6] (by decide), h.2.1 [] (by decide), h.2.2 [exP6] (by decide)⟩

/-- Two posts by viewer 1 with the same creation time: the state for the
C2 tie-break counterexample. -/
def exTieP1 : Post := { id := 1, user_id := 1, content := "x", created_at := 10 }

/-- The second same-timestamp post of the tie-break counterexample. -/
def exTieP2 : Post := { id := 2, user_id := 1, content := "y", created_at := 10 }

/-- The state holding `exTieP1` and `exTieP2`. -/
def exDbTie : DB :=
  { users := [⟨1, "alice"⟩], posts := [exTieP1, exTieP2],
    follows := [], blocks := [], mutes := [], likes := [], notifications := [],
    notes := [], ratings := [], next_post_id := 3, next_rating_id := 1 }

/-- Claim C2 counterexample: the id-ascending sequence of the two
same-timestamp posts is a valid result of the home-timeline query (it is
sorted by creation time descending), but it is not ordered with ties
broken by post id descending, so the claimed tie-break does not hold of
every returned sequence. -/
theorem home_timeline_counterexample :
    homeRows exDbTie 1 [exTieP1, exTieP2] ∧
    ¬ specHomeOrder [exTieP1, exTieP2] := by
  decide

theorem home_timeline_content_witness :
    (∀ p, p ∈ [exTieP1, exTieP2] ↔
      p ∈ exDbTie.posts ∧ specHomeCond exDbTie 1 p) ∧
    List.Pairwise (fun a b => b.created_at ≤ a.created_at) [exTieP1, exTieP2] ∧
    (∀ p ∈ feedPage [exTieP1, exTieP2] 1 20,
      p ∈ exDbTie.posts ∧ specHomeCond exDbTie 1 p) :=
  home_timeline_content exDbTie 1 [exTieP1, exTieP2] 1 20
    (by decide) (by decide) (by decide)

theorem self_action_suppression_witness :
    like_post exDbReply 1 1 =
      some ({ exDbReply with likes := exDbReply.likes ++ [(1, 1)] }, true,
        likeCount exDbReply 1 + 1) ∧
    (∃ db', repost exDbReply 1 1 2 = some db' ∧
      db'.notifications = exDbReply.notifications ∧
      repostCount db' 1 = repostCount exDbReply 1 + 1) ∧
    (∃ db', reply exDbReply 1 1 "hi" 2 = some db' ∧
      db'.notifications =
        exDbReply.notifications ++ mentionNotifs exDbReply 1 exDbReply.next_post_id "hi" ∧
      (∀ nf ∈ mentionNotifs exDbReply 1 exDbReply.next_post_id "hi",
        nf.ntype = "mention" ∧ nf.user_id ≠ 1) ∧
      replyCount db' 1 = replyCount exDbReply 1 + 1) := by
  have h := self_action_suppression exDbReply 1 1 2 "hi"
    { id := 1, user_id := 1, content := "p1", created_at := 1 }
    (by decide) (by decide)
  exact ⟨h.1 (by decide), h.2.1 (by decide), h.2.2 (by decide)⟩

end Chirp
